import Mathlib

/-!
Shallow embedding of `munin-node.go` (a munin monitoring-agent daemon) and
verification of its specification claims.

Strings are processed at the character level, which coincides with Go's
byte-level string operations on the ASCII inputs the daemon handles.
File-system reads, the regexp engine and subprocess spawning are external
effects; they are modelled as explicit oracle parameters, and the Go
process-wide environment table (`os.Setenv` / inherited by `exec.Command`)
is modelled by explicit state passing of a `GlobalEnv` association list.
-/

namespace MuninNode

/-- Go `unicode.IsSpace` restricted to the ASCII whitespace characters that
`strings.TrimSpace` strips from the daemon's config and protocol lines. -/
def isSpaceChar (c : Char) : Bool :=
  c == ' ' || c == '\t' || c == '\n' || c == Char.ofNat 11 || c == Char.ofNat 12 || c == '\r'

/-- Strip leading and trailing whitespace from a character list. -/
def trimChars (l : List Char) : List Char :=
  ((l.dropWhile isSpaceChar).reverse.dropWhile isSpaceChar).reverse

/-- Model of Go `strings.TrimSpace`. -/
def trimSpace (s : String) : String :=
  ⟨trimChars s.data⟩

/-- Model of Go `strings.HasPrefix`: `pre` begins `s`. -/
def strHasPre (s pre : String) : Bool :=
  pre.data.isPrefixOf s.data

/-- Model of Go `strings.HasSuffix`: `suf` ends `s`. -/
def strHasSuf (s suf : String) : Bool :=
  suf.data.isSuffixOf s.data

/-- Model of Go `strings.TrimPrefix`: drop `pre` from the front of `s` when present. -/
def trimPre (s pre : String) : String :=
  if strHasPre s pre then ⟨s.data.drop pre.data.length⟩ else s

/-- Split a character list at every occurrence of `sep` (Go `strings.Split`
semantics: the empty input yields one empty field). -/
def splitChars (sep : Char) : List Char → List (List Char)
  | [] => [[]]
  | c :: cs =>
    if c = sep then [] :: splitChars sep cs
    else
      match splitChars sep cs with
      | [] => [[c]]
      | h :: t => (c :: h) :: t

/-- Model of Go `strings.Split` on a one-character separator. -/
def splitOnSep (s : String) (sep : Char) : List String :=
  (splitChars sep s.data).map fun l => ⟨l⟩

/-- Model of Go `strings.Join`. -/
def joinWith (sep : String) : List String → String
  | [] => ""
  | [x] => x
  | x :: xs => x ++ sep ++ joinWith sep xs

/-- Split a character list at the first space, returning the parts before and
after it, or `none` when no space occurs. -/
def breakAtSpace : List Char → Option (List Char × List Char)
  | [] => none
  | c :: cs =>
    if c = ' ' then some ([], cs)
    else
      match breakAtSpace cs with
      | none => none
      | some (a, b) => some (c :: a, b)

/-- Model of Go `strings.SplitN(s, " ", 2)`: `none` when the split produces a
single field (no space in `s`), otherwise the two fields. -/
def splitN2 (s : String) : Option (String × String) :=
  (breakAtSpace s.data).map fun p => (⟨p.1⟩, ⟨p.2⟩)

/-- The process-wide environment table, an ordered association list of
variable name to value. -/
abbrev GlobalEnv := List (String × String)

/-- Model of Go `os.Setenv`: overwrite the binding for `k` in place, or append
a fresh binding. -/
def setenv : GlobalEnv → String → String → GlobalEnv
  | [], k, v => [(k, v)]
  | (k', v') :: rest, k, v =>
    if k' = k then (k, v) :: rest else (k', v') :: setenv rest k v

/-- The descending loop of `generatePossibleSections` (munin-node.go:186-188):
for `i` from `n` down to `1`, append the join of the first `i` underscore
tokens suffixed with `_*`. -/
def sectionLoop (parts : List String) : Nat → List String
  | 0 => []
  | i + 1 => (joinWith "_" (parts.take (i + 1)) ++ "_*") :: sectionLoop parts i

/-- Function `generatePossibleSections` (munin-node.go:178-191): the candidate config
sections for a plugin name, `"*"` first, then the wildcard prefixes of the
underscore tokens, most specific first. -/
def generatePossibleSections (plugin : String) : List String :=
  let parts := splitOnSep plugin '_'
  "*" :: sectionLoop parts parts.length

/-- One step of the `generatePossibleSections` loop unfolds to the closed
form over a reversed range. -/
theorem sectionLoop_eq (parts : List String) (n : Nat) :
    sectionLoop parts n =
      (List.range n).reverse.map fun j => joinWith "_" (parts.take (j + 1)) ++ "_*" := by
  induction n with
  | zero => rfl
  | succ n ih =>
    rw [sectionLoop, ih, List.range_succ, List.reverse_append]
    rfl

/-- Claim C5: for every plugin name with `n` underscore-separated tokens, the
candidate section list is exactly `"*"` first, then for `i` from `n` down
to `1` the join of the first `i` tokens suffixed with `"_*"`; in particular
for `diskio_sda` the candidates after `"*"` are `diskio_sda_*` then
`diskio_*`. -/
theorem c5_candidate_sections :
    (∀ plugin : String,
      generatePossibleSections plugin =
        "*" :: ((List.range (splitOnSep plugin '_').length).reverse.map
          fun j => joinWith "_" ((splitOnSep plugin '_').take (j + 1)) ++ "_*")) ∧
    generatePossibleSections "diskio_sda" = ["*", "diskio_sda_*", "diskio_*"] := by
  constructor
  · intro plugin
    rw [generatePossibleSections, sectionLoop_eq]
  · rfl

/-- The scanning loop of `loadPluginConfig` (munin-node.go:133-167) over the
lines of the plugin-configuration file, with the current section and the
process-wide environment table threaded explicitly.  A `[...]` header whose
inner text matches a candidate section becomes the current section (a
non-matching header leaves it as it was); while the current section is
non-empty, `env.KEY value` lines update the environment via `os.Setenv`,
and an `env.` line that `strings.SplitN` cannot split in two is an error. -/
def loadLoop (possible : List String) : List String → String → GlobalEnv →
    Except String GlobalEnv
  | [], _, env => Except.ok env
  | rawLine :: rest, cur, env =>
    let line := trimSpace rawLine
    if line = "" ∨ strHasPre line "#" = true then
      loadLoop possible rest cur env
    else if strHasPre line "[" = true ∧ strHasSuf line "]" = true then
      let sec : String := ⟨(line.data.drop 1).dropLast⟩
      let cur' := if sec ∈ possible then sec else cur
      loadLoop possible rest cur' env
    else if cur ≠ "" ∧ strHasPre line "env." = true then
      match splitN2 line with
      | none => Except.error ("invalid string format: " ++ line)
      | some (k, v) =>
        loadLoop possible rest cur (setenv env (trimPre k "env.") (trimSpace v))
    else
      loadLoop possible rest cur env

/-- Function `loadPluginConfig` (munin-node.go:116-176): resolve the environment for a
plugin by scanning the plugin-configuration file (given as its list of
lines) against the candidate sections, mutating the process-wide
environment table. -/
def loadPluginConfig (lines : List String) (plugin : String) (env : GlobalEnv) :
    Except String GlobalEnv :=
  loadLoop (generatePossibleSections plugin) lines "" env

/-- The segment-processing core of Go `path/filepath.Clean` on Unix: drop
empty and `.` segments, resolve `..` against the accumulated output,
keeping `..` at the start of a relative path and dropping it at the root. -/
def cleanSegs (rooted : Bool) : List String → List String → List String
  | [], acc => acc.reverse
  | "" :: rest, acc => cleanSegs rooted rest acc
  | "." :: rest, acc => cleanSegs rooted rest acc
  | ".." :: rest, acc =>
    match acc with
    | [] => if rooted then cleanSegs rooted rest [] else cleanSegs rooted rest [".."]
    | a :: as =>
      if a = ".." then cleanSegs rooted rest (".." :: a :: as)
      else cleanSegs rooted rest as
  | seg :: rest, acc => cleanSegs rooted rest (seg :: acc)

/-- Model of Go `path/filepath.Clean` (Unix separator). -/
def goClean (p : String) : String :=
  if p = "" then "." else
  let rooted := strHasPre p "/"
  let segs := cleanSegs rooted (splitOnSep p '/') []
  if rooted = true then "/" ++ joinWith "/" segs
  else if segs = [] then "." else joinWith "/" segs

/-- Model of Go `path/filepath.Join` on two elements: join the elements from
the first non-empty one with `/` and clean the result. -/
def goJoin2 (a b : String) : String :=
  if a ≠ "" then goClean (a ++ "/" ++ b)
  else if b ≠ "" then goClean b
  else ""

/-- Model of Go `path/filepath.Abs`: an absolute path is cleaned, a relative
one is joined onto the working directory `cwd` first. -/
def goAbs (cwd p : String) : String :=
  if strHasPre p "/" = true then goClean p else goClean (cwd ++ "/" ++ p)

/-- Result of `os.Lstat` for one path: whether the entry is a directory and
whether it is a symbolic link (`Lstat` does not follow links). -/
structure FileInfo where
  isDir : Bool
  isSymlink : Bool
deriving DecidableEq

/-- A file-system oracle: the `os.Lstat` view of every path (`none` models a
stat failure such as a missing file). -/
abbrev Lstat := String → Option FileInfo

/-- A subprocess oracle: what running the executable at a path with one
argument produces, given the process-wide environment it inherits
(`exec.Command` with `Env == nil` inherits the current process table). -/
abbrev Runner := String → String → GlobalEnv → Except String String

/-- Function `validatePluginPath` (munin-node.go:193-219): canonicalize the candidate
path and the allowed folder, require the folder to be a string prefix of
the candidate (`strings.HasPrefix`), then reject symbolic links based on
`os.Lstat`. -/
def validatePluginPath (fs : Lstat) (cwd folder pluginPath : String) :
    Except String Unit :=
  let absPluginPath := goAbs cwd pluginPath
  let absAllowedDir := goAbs cwd folder
  if strHasPre absPluginPath absAllowedDir = false then
    Except.error ("plugin is outside the allowed folder: " ++ absAllowedDir)
  else
    match fs absPluginPath with
    | none => Except.error "failed to get plugin information"
    | some info =>
      if info.isSymlink then
        Except.error ("plugin is a symbolic link: " ++ absPluginPath)
      else Except.ok ()

/-- Function `executePlugin` (munin-node.go:221-243): join the plugin name onto the
plugin folder, validate the path, resolve the plugin's environment into
the process-wide table, then run the subprocess (which inherits that
table) and capture its output. -/
def executePlugin (fs : Lstat) (run : Runner) (cwd folder : String)
    (configLines : List String) (plugin opt : String) (env : GlobalEnv) :
    Except String (String × GlobalEnv) :=
  let pluginPath := goJoin2 folder plugin
  match validatePluginPath fs cwd folder pluginPath with
  | Except.error e => Except.error e
  | Except.ok _ =>
    match loadPluginConfig configLines plugin env with
    | Except.error e => Except.error e
    | Except.ok env2 =>
      match run pluginPath opt env2 with
      | Except.error e => Except.error ("plugin failed to execute: " ++ e)
      | Except.ok out => Except.ok (out, env2)

/-- Function `isAllowedIP` (munin-node.go:85-97): try each pattern in order against
the client address with the regexp engine (modelled as the oracle `m`,
`Except.error` modelling a malformed pattern); a malformed pattern is
skipped, the first pattern that matches accepts, and exhausting the list
denies. -/
def isAllowedIP (m : String → String → Except String Bool) (clientIP : String) :
    List String → Bool
  | [] => false
  | pat :: rest =>
    match m pat clientIP with
    | Except.error _ => isAllowedIP m clientIP rest
    | Except.ok true => true
    | Except.ok false => isAllowedIP m clientIP rest

/-- One entry of the plugin directory as returned by `ioutil.ReadDir`. -/
structure DirEntry where
  name : String
  isDir : Bool
deriving DecidableEq

/-- Function `listPlugins` (munin-node.go:99-114): the space-joined names of the
non-directory entries of the plugin folder followed by a newline, or the
empty string when the directory cannot be read (`none`). -/
def listPlugins (entries : Option (List DirEntry)) : String :=
  match entries with
  | none => ""
  | some files =>
    joinWith " " ((files.filter fun f => !f.isDir).map fun f => f.name) ++ "\n"

/-- The bytes written for the `list` command (munin-node.go:311-312):
`fmt.Fprintln` appends one more newline to the `listPlugins` result. -/
def listReply (entries : Option (List DirEntry)) : String :=
  listPlugins entries ++ "\n"

/-- The bytes written for `config <plugin>` (munin-node.go:314-326): on
success the plugin output verbatim followed by `.` and a newline, on any
executor failure the generic unknown-service reply. -/
def configReply (result : Except String String) : String :=
  match result with
  | Except.ok output => output ++ ".\n"
  | Except.error _ => "# Unknown service\n.\n"

/-- The bytes written for `fetch <plugin>` (munin-node.go:328-341), identical
framing to the `config` branch. -/
def fetchReply (result : Except String String) : String :=
  match result with
  | Except.ok output => output ++ ".\n"
  | Except.error _ => "# Unknown service\n.\n"

/-- A reply ends with a line containing only `.`: it is the single line `.`
or its text ends in newline, dot, newline. -/
def endsWithDotLine (s : String) : Bool :=
  s.data == ['.', '\n'] || List.isSuffixOf ['\n', '.', '\n'] s.data

/-- Modelled from the spec: containment of a canonical candidate path within
a canonical directory as a path-segment prefix, the requirement the spec
states for step 2 of the executor (a sibling directory sharing a string
prefix is not contained). -/
def specSegmentContained (dir path : String) : Bool :=
  path == dir || (dir ++ "/").data.isPrefixOf path.data

/-- An `os.Lstat` view in which `/plugins-evil/x` is a regular file, sibling
to the allowed folder `/plugins`. -/
def fsSibling : Lstat := fun p =>
  if p = "/plugins-evil/x" then some ⟨false, false⟩ else none

/-- A subprocess oracle that records which executable path was spawned. -/
def runCapture : Runner := fun p _ _ => Except.ok ("ran " ++ p)

/-- Claim C1: the containment check of `validatePluginPath` is a raw string
prefix test, so the canonical candidate `/plugins-evil/x` — which is not
contained in `/plugins` as a path-segment prefix — passes validation for
the wire-deliverable plugin name `../plugins-evil/x`, and the executor
runs a file outside the plugin directory. -/
theorem c1_string_prefix_containment_bug :
    goJoin2 "/plugins" "../plugins-evil/x" = "/plugins-evil/x" ∧
    specSegmentContained "/plugins" "/plugins-evil/x" = false ∧
    validatePluginPath fsSibling "/" "/plugins"
      (goJoin2 "/plugins" "../plugins-evil/x") = Except.ok () ∧
    executePlugin fsSibling runCapture "/" "/plugins" [] "../plugins-evil/x" "" [] =
      Except.ok ("ran /plugins-evil/x", []) :=
  ⟨rfl, rfl, rfl, rfl⟩

/-- An `os.Lstat` view with the two regular plugins `/plugins/p` and
`/plugins/q`. -/
def fsTwoPlugins : Lstat := fun p =>
  if p = "/plugins/p" ∨ p = "/plugins/q" then some ⟨false, false⟩ else none

/-- A subprocess oracle that reports the environment table the subprocess
inherited. -/
def runEcho : Runner := fun _ _ env =>
  Except.ok (joinWith "," (env.map fun kv => kv.1 ++ "=" ++ kv.2))

/-- A plugin-configuration file whose `[p_*]` section applies only to the
plugin `p`. -/
def linesOnlyP : List String := ["[p_*]", "env.FOO a"]

/-- Claim C2: resolving plugin `p` stores `FOO=a` in the process-wide
environment table (`os.Setenv`), the table still holds it afterwards, and
a later invocation of the unrelated plugin `q` — whose own resolution
contributes nothing — spawns a subprocess that inherits `FOO=a`: the set
resolved for one invocation leaks into another invocation's process
image. -/
theorem c2_global_env_leak :
    executePlugin fsTwoPlugins runEcho "/" "/plugins" linesOnlyP "p" "" [] =
      Except.ok ("FOO=a", [("FOO", "a")]) ∧
    executePlugin fsTwoPlugins runEcho "/" "/plugins" linesOnlyP "q" "" [("FOO", "a")] =
      Except.ok ("FOO=a", [("FOO", "a")]) ∧
    ([("FOO", "a")] : GlobalEnv) ≠ [] :=
  ⟨rfl, rfl, by decide⟩

/-- Counterexample to claim C4: under the non-matching header `[other]` that
follows the matching header `[*]`, the assignment `env.FOO bar` still
contributes to plugin `p`'s environment, because a non-matching header
does not close the open section. -/
theorem c4_env_under_nonmatching_counterexample :
    loadPluginConfig ["[*]", "[other]", "env.FOO bar"] "p" [] =
      Except.ok [("FOO", "bar")] ∧
    ([("FOO", "bar")] : GlobalEnv) ≠ [] :=
  ⟨rfl, by decide⟩

/-- An `os.Lstat` view with the single regular plugin `/plugins/p`. -/
def fsOnlyP : Lstat := fun p =>
  if p = "/plugins/p" then some ⟨false, false⟩ else none

/-- A subprocess oracle with constant output. -/
def runConst : Runner := fun _ _ _ => Except.ok "out"

/-- Counterexample to claim C9: a configuration file consisting of the
value-less line `env.FOO` outside any section resolves successfully (the
line is skipped because no section is open), and the invocation proceeds
to run the plugin. -/
theorem c9_ignored_outside_section_counterexample :
    loadPluginConfig ["env.FOO"] "p" [] = Except.ok [] ∧
    executePlugin fsOnlyP runConst "/" "/plugins" ["env.FOO"] "p" "" [] =
      Except.ok ("out", []) :=
  ⟨rfl, rfl⟩

/-- Counterexample to claim C10: for the plugin named `*`, the candidate list
contains `*` itself, so the header `[*]` — whose literal text equals the
plugin name — opens a matching section and contributes environment
variables to that plugin's invocation. -/
theorem c10_star_counterexample :
    ("*" ∈ generatePossibleSections "*") ∧
    loadPluginConfig ["[*]", "env.A b"] "*" [] = Except.ok [("A", "b")] :=
  ⟨by decide, rfl⟩

/-- Counterexample to claim C6: when the plugin output `foo` does not end
with a newline, the `config` (and `fetch`) reply is `foo.\n`, whose final
line is `foo.` rather than a line containing only `.`. -/
theorem c6_no_trailing_newline_counterexample :
    configReply (Except.ok "foo") = "foo.\n" ∧
    endsWithDotLine (configReply (Except.ok "foo")) = false ∧
    endsWithDotLine (fetchReply (Except.ok "foo")) = false :=
  ⟨rfl, rfl, rfl⟩

/-- Counterexample to claim C8: for a directory holding exactly the files
`cpu` and `memory`, the `list` reply is `cpu memory` followed by two
newlines — `listPlugins` appends one and the `fmt.Fprintln` reply adds
another — not by a single newline. -/
theorem c8_double_newline_counterexample :
    listReply (some [⟨"cpu", false⟩, ⟨"memory", false⟩]) = "cpu memory\n\n" ∧
    listReply (some [⟨"cpu", false⟩, ⟨"memory", false⟩]) ≠ "cpu memory\n" :=
  ⟨rfl, by decide⟩

/-- Claim C3: when `os.Lstat` reports the resolved candidate path as a
symbolic link, validation fails, and the executor returns that same error
for every subprocess oracle, configuration file and environment — the
link target is never run, wherever the link points. -/
theorem c3_symlink_always_rejected (fs : Lstat) (cwd folder plugin : String)
    (info : FileInfo)
    (hfs : fs (goAbs cwd (goJoin2 folder plugin)) = some info)
    (hsym : info.isSymlink = true) :
    ∃ e, validatePluginPath fs cwd folder (goJoin2 folder plugin) = Except.error e ∧
      ∀ (run : Runner) (configLines : List String) (opt : String) (env : GlobalEnv),
        executePlugin fs run cwd folder configLines plugin opt env = Except.error e := by
  have hval : ∃ e, validatePluginPath fs cwd folder (goJoin2 folder plugin) =
      Except.error e := by
    cases hb : strHasPre (goAbs cwd (goJoin2 folder plugin)) (goAbs cwd folder) with
    | false =>
      exact ⟨"plugin is outside the allowed folder: " ++ goAbs cwd folder,
        by simp [validatePluginPath, hb]⟩
    | true =>
      exact ⟨"plugin is a symbolic link: " ++ goAbs cwd (goJoin2 folder plugin),
        by simp [validatePluginPath, hb, hfs, hsym]⟩
  obtain ⟨e, he⟩ := hval
  exact ⟨e, he, fun run configLines opt env => by simp [executePlugin, he]⟩

/-- An `os.Lstat` view in which `/plugins/link` is a symbolic link. -/
def fsSymlink : Lstat := fun p =>
  if p = "/plugins/link" then some ⟨false, true⟩ else none

/-- Witness for C3 at the concrete symbolic link `/plugins/link`. -/
theorem c3_symlink_witness :
    fsSymlink (goAbs "/" (goJoin2 "/plugins" "link")) = some ⟨false, true⟩ ∧
    (⟨false, true⟩ : FileInfo).isSymlink = true ∧
    (∃ e, validatePluginPath fsSymlink "/" "/plugins" (goJoin2 "/plugins" "link") =
        Except.error e ∧
      ∀ (run : Runner) (configLines : List String) (opt : String) (env : GlobalEnv),
        executePlugin fsSymlink run "/" "/plugins" configLines "link" opt env =
          Except.error e) :=
  ⟨rfl, rfl, c3_symlink_always_rejected fsSymlink "/" "/plugins" "link" ⟨false, true⟩ rfl rfl⟩

/-- Claim C7: the access guard denies on an empty pattern list, accepts
exactly when some pattern in the list matches the address under the
regexp oracle, and skips a malformed pattern (a regexp error) rather than
failing or denying everything. -/
theorem c7_access_guard :
    (∀ (m : String → String → Except String Bool) (ip : String),
      isAllowedIP m ip [] = false) ∧
    (∀ (m : String → String → Except String Bool) (ip : String) (pats : List String),
      isAllowedIP m ip pats = true ↔ ∃ pat ∈ pats, m pat ip = Except.ok true) ∧
    (∀ (m : String → String → Except String Bool) (ip pat : String)
       (rest : List String) (e : String),
      m pat ip = Except.error e →
      isAllowedIP m ip (pat :: rest) = isAllowedIP m ip rest) := by
  refine ⟨fun m ip => rfl, ?_, ?_⟩
  · intro m ip pats
    induction pats with
    | nil => simp [isAllowedIP]
    | cons pat rest ih =>
      cases hm : m pat ip with
      | error e => simp [isAllowedIP, hm, ih]
      | ok b =>
        cases b with
        | false => simp [isAllowedIP, hm, ih]
        | true =>
          simp only [isAllowedIP, hm]
          exact ⟨fun _ => ⟨pat, List.mem_cons_self pat rest, hm⟩, fun _ => trivial⟩
  · intro m ip pat rest e hm
    simp [isAllowedIP, hm]

/-- A regexp oracle under which the pattern `bad` is malformed and every
other pattern fails to match. -/
def mBad : String → String → Except String Bool := fun pat _ =>
  if pat = "bad" then Except.error "syntax" else Except.ok false

/-- Witness for C7: the malformed pattern `bad` is skipped. -/
theorem c7_access_guard_witness :
    mBad "bad" "10.0.0.9" = Except.error "syntax" ∧
    isAllowedIP mBad "10.0.0.9" ["bad", "x"] = isAllowedIP mBad "10.0.0.9" ["x"] :=
  ⟨rfl, c7_access_guard.2.2 mBad "10.0.0.9" "bad" ["x"] "syntax" rfl⟩

/-- Amended claim C8: the `list` reply is the space-joined names of the
non-directory entries followed by two newlines (one from `listPlugins`,
one from `fmt.Fprintln`); for the files `cpu` and `memory` it is
`cpu memory\n\n`. -/
theorem c8_list_reply_two_newlines :
    (∀ files : List DirEntry,
      listReply (some files) =
        joinWith " " ((files.filter fun f => !f.isDir).map fun f => f.name) ++ "\n\n") ∧
    listReply (some [⟨"cpu", false⟩, ⟨"memory", false⟩]) = "cpu memory\n\n" := by
  constructor
  · intro files
    show (joinWith " " _ ++ "\n") ++ "\n" = _ ++ "\n\n"
    have h2 : ("\n" : String) ++ "\n" = "\n\n" := rfl
    rw [String.append_assoc, h2]
  · rfl

/-- Every element produced by the descending section loop ends in `_*`. -/
theorem mem_sectionLoop_ends_wild (parts : List String) (n : Nat) (c : String)
    (h : c ∈ sectionLoop parts n) : ∃ s, c = s ++ "_*" := by
  induction n with
  | zero => simp [sectionLoop] at h
  | succ n ih =>
    rw [sectionLoop] at h
    rcases List.mem_cons.mp h with h1 | h2
    · exact ⟨joinWith "_" (parts.take (n + 1)), h1⟩
    · exact ih h2

/-- Appending a suffix makes `strings.HasSuffix` hold. -/
theorem strHasSuf_append (s t : String) : strHasSuf (s ++ t) t = true := by
  simp [strHasSuf, List.isSuffixOf_iff_suffix]

/-- Amended claim C10: every candidate section is `*` or ends in `_*`, so for
every plugin name that is neither `*` itself nor ends in `_*`, a section
header whose literal text equals the plugin name matches no candidate. -/
theorem c10_no_exact_name_match :
    (∀ p c : String, c ∈ generatePossibleSections p → c = "*" ∨ ∃ s, c = s ++ "_*") ∧
    (∀ p : String, p ≠ "*" → strHasSuf p "_*" = false →
      p ∉ generatePossibleSections p) := by
  have part1 : ∀ p c : String,
      c ∈ generatePossibleSections p → c = "*" ∨ ∃ s, c = s ++ "_*" := by
    intro p c h
    rw [generatePossibleSections] at h
    rcases List.mem_cons.mp h with h1 | h2
    · exact Or.inl h1
    · exact Or.inr (mem_sectionLoop_ends_wild _ _ _ h2)
  refine ⟨part1, ?_⟩
  intro p h1 h2 hmem
  rcases part1 p p hmem with h | ⟨s, hs⟩
  · exact h1 h
  · rw [hs, strHasSuf_append] at h2
    exact absurd h2 (by decide)

/-- Witness for C10 at the plugin name `diskio_sda`, which is not `*` and
does not end in `_*`: no candidate equals the name itself. -/
theorem c10_no_exact_name_match_witness :
    ("diskio_sda" : String) ≠ "*" ∧
    strHasSuf "diskio_sda" "_*" = false ∧
    "diskio_sda" ∉ generatePossibleSections "diskio_sda" :=
  ⟨by decide, rfl, c10_no_exact_name_match.2 "diskio_sda" (by decide) rfl⟩

/-- Amended claim C6: the replies to `config` and `fetch` end with a line
containing only `.` whenever the plugin output is empty or ends with a
newline, and on every executor failure. -/
theorem c6_dot_terminated_when_newline (output : String)
    (h : output = "" ∨ ∃ u, output = u ++ "\n") :
    endsWithDotLine (configReply (Except.ok output)) = true ∧
    endsWithDotLine (fetchReply (Except.ok output)) = true ∧
    ∀ e : String, endsWithDotLine (configReply (Except.error e)) = true ∧
      endsWithDotLine (fetchReply (Except.error e)) = true := by
  have hn : ("\n" : String).data = ['\n'] := rfl
  have hd : (".\n" : String).data = ['.', '\n'] := rfl
  refine ⟨?_, ?_, fun e => ⟨rfl, rfl⟩⟩ <;>
  · rcases h with h | ⟨u, h⟩
    · subst h; rfl
    · subst h
      simp [configReply, fetchReply, endsWithDotLine, String.data_append, hn, hd,
        List.isSuffixOf_iff_suffix, List.append_assoc]

/-- Witness for C6 at the newline-terminated output `a\n`. -/
theorem c6_dot_witness :
    (∃ u : String, ("a\n" : String) = u ++ "\n") ∧
    (endsWithDotLine (configReply (Except.ok "a\n")) = true ∧
     endsWithDotLine (fetchReply (Except.ok "a\n")) = true ∧
     ∀ e : String, endsWithDotLine (configReply (Except.error e)) = true ∧
       endsWithDotLine (fetchReply (Except.error e)) = true) :=
  ⟨⟨"a", rfl⟩, c6_dot_terminated_when_newline "a\n" (Or.inr ⟨"a", rfl⟩)⟩

/-- A character list beginning with a different character is not a prefix. -/
theorem isPrefixOf_cons_of_ne {b a : Char} (l m : List Char) (h : b ≠ a) :
    List.isPrefixOf (b :: l) (a :: m) = false := by
  simp [List.isPrefixOf, h]

/-- Splitting at the first space finds nothing in a space-free list. -/
theorem breakAtSpace_eq_none (l : List Char) (h : ' ' ∉ l) :
    breakAtSpace l = none := by
  induction l with
  | nil => rfl
  | cons c cs ih =>
    have hc : ¬c = ' ' := fun hh => h (hh ▸ List.mem_cons_self c cs)
    have ht : ' ' ∉ cs := fun hm => h (List.mem_cons_of_mem c hm)
    simp [breakAtSpace, hc, ih ht]

/-- Amended claim C4: a `[...]` header whose inner text matches no candidate
section leaves the scanner's state — in particular the currently open
section — exactly as it was, rather than closing it. -/
theorem c4_nonmatching_header_leaves_section_open
    (possible rest2 : List String) (cur : String) (env : GlobalEnv)
    (hdrLine sec : String)
    (hparse : trimSpace hdrLine = "[" ++ sec ++ "]")
    (hnomatch : sec ∉ possible) :
    loadLoop possible (hdrLine :: rest2) cur env = loadLoop possible rest2 cur env := by
  have hb1 : ("[" : String).data = ['['] := rfl
  have hb2 : ("]" : String).data = [']'] := rfl
  have hdata : (trimSpace hdrLine).data = '[' :: (sec.data ++ [']']) := by
    rw [hparse]
    simp [String.data_append, hb1, hb2]
  have hne : trimSpace hdrLine ≠ "" := by
    intro hh
    rw [hh] at hdata
    have h0 : ([] : List Char) = '[' :: (sec.data ++ [']']) := hdata
    cases h0
  have hhash : strHasPre (trimSpace hdrLine) "#" = false := by
    have h1 : ("#" : String).data = ['#'] := rfl
    rw [strHasPre, h1, hdata]
    exact isPrefixOf_cons_of_ne _ _ (by decide)
  have hbr : strHasPre (trimSpace hdrLine) "[" = true := by
    rw [strHasPre, hb1, hdata]
    simp [List.isPrefixOf]
  have hsu : strHasSuf (trimSpace hdrLine) "]" = true := by
    rw [strHasSuf, hb2, hdata, List.isSuffixOf_iff_suffix]
    exact ⟨'[' :: sec.data, by simp⟩
  have hsec : (⟨((trimSpace hdrLine).data.drop 1).dropLast⟩ : String) = sec := by
    rw [hdata]
    simp
  have hc1 : ¬(trimSpace hdrLine = "" ∨ strHasPre (trimSpace hdrLine) "#" = true) := by
    rintro (h | h)
    · exact hne h
    · rw [hhash] at h; cases h
  simp only [loadLoop]
  rw [if_neg hc1, if_pos ⟨hbr, hsu⟩, hsec, if_neg hnomatch]

/-- Witness for C4: the header `[other]` matching no candidate of plugin `p`
leaves the open section `*` in place. -/
theorem c4_header_witness :
    trimSpace "[other]" = "[" ++ "other" ++ "]" ∧
    ("other" : String) ∉ (["*", "p_*"] : List String) ∧
    loadLoop ["*", "p_*"] ["[other]"] "*" [] = loadLoop ["*", "p_*"] [] "*" [] :=
  ⟨rfl, by decide,
    c4_nonmatching_header_leaves_section_open ["*", "p_*"] [] "*" [] "[other]" "other"
      rfl (by decide)⟩

/-- Amended claim C9: an `env.` line with no value token (no space after the
key) aborts resolution with the invalid-line-format error exactly when a
matching section is open when it is scanned, and a failed resolution
always aborts the invocation (the executor never returns success). -/
theorem c9_invalid_env_line :
    (∀ (possible rest2 : List String) (cur : String) (env : GlobalEnv)
       (rawLine : String) (t : List Char),
      cur ≠ "" →
      (trimSpace rawLine).data = 'e' :: 'n' :: 'v' :: '.' :: t →
      ' ' ∉ t →
      loadLoop possible (rawLine :: rest2) cur env =
        Except.error ("invalid string format: " ++ trimSpace rawLine)) ∧
    (∀ (fs : Lstat) (run : Runner) (cwd folder : String) (configLines : List String)
       (plugin opt : String) (env : GlobalEnv) (e : String),
      loadPluginConfig configLines plugin env = Except.error e →
      ∀ r, executePlugin fs run cwd folder configLines plugin opt env ≠ Except.ok r) := by
  constructor
  · intro possible rest2 cur env rawLine t hcur hdata hnsp
    have hne : trimSpace rawLine ≠ "" := by
      intro hh
      rw [hh] at hdata
      have h0 : ([] : List Char) = 'e' :: 'n' :: 'v' :: '.' :: t := hdata
      cases h0
    have hhash : strHasPre (trimSpace rawLine) "#" = false := by
      have h1 : ("#" : String).data = ['#'] := rfl
      rw [strHasPre, h1, hdata]
      exact isPrefixOf_cons_of_ne _ _ (by decide)
    have hbr : strHasPre (trimSpace rawLine) "[" = false := by
      have h1 : ("[" : String).data = ['['] := rfl
      rw [strHasPre, h1, hdata]
      exact isPrefixOf_cons_of_ne _ _ (by decide)
    have henv : strHasPre (trimSpace rawLine) "env." = true := by
      have h1 : ("env." : String).data = ['e', 'n', 'v', '.'] := rfl
      rw [strHasPre, h1, hdata]
      simp [List.isPrefixOf]
    have hsplit : splitN2 (trimSpace rawLine) = none := by
      rw [splitN2, hdata]
      have hb : breakAtSpace ('e' :: 'n' :: 'v' :: '.' :: t) = none := by
        simp [breakAtSpace, breakAtSpace_eq_none t hnsp]
      rw [hb]
      rfl
    have hc1 : ¬(trimSpace rawLine = "" ∨ strHasPre (trimSpace rawLine) "#" = true) := by
      rintro (h | h)
      · exact hne h
      · rw [hhash] at h; cases h
    have hc2 : ¬(strHasPre (trimSpace rawLine) "[" = true ∧
        strHasSuf (trimSpace rawLine) "]" = true) := by
      rintro ⟨h, _⟩
      rw [hbr] at h
      cases h
    simp only [loadLoop]
    rw [if_neg hc1, if_neg hc2, if_pos ⟨hcur, henv⟩, hsplit]
  · intro fs run cwd folder configLines plugin opt env e hload r h
    cases hv : validatePluginPath fs cwd folder (goJoin2 folder plugin) with
    | error e2 => simp [executePlugin, hv] at h
    | ok u => simp [executePlugin, hv, hload] at h

/-- Witness for C9: the value-less line `env.FOO` scanned while the section
`*` is open aborts with the invalid-line-format error. -/
theorem c9_invalid_env_witness :
    ("*" : String) ≠ "" ∧
    (trimSpace "env.FOO").data = 'e' :: 'n' :: 'v' :: '.' :: ['F', 'O', 'O'] ∧
    ' ' ∉ ['F', 'O', 'O'] ∧
    loadLoop ["*"] ["env.FOO"] "*" [] =
      Except.error ("invalid string format: " ++ trimSpace "env.FOO") :=
  ⟨by decide, rfl, by decide,
    c9_invalid_env_line.1 ["*"] [] "*" [] "env.FOO" ['F', 'O', 'O']
      (by decide) rfl (by decide)⟩

end MuninNode
